import Mathlib

/-
Verification of the Glicko-2 rating calculator (src/cpp/glicko2.cpp,
glicko2.h) against its natural-language specification.

The C++ `double` arithmetic is embedded shallowly as real-number
arithmetic (`ℝ`).  The one loop of the program — the Newton iteration of
the volatility solver — has no iteration bound in the source, so it is
embedded as a fuel-indexed function returning `Option ℝ`; `none` means
the loop has not yet stopped within the given number of iterations.
-/

namespace Glicko

/-- PI_SQUARED constant from glicko2.cpp (the source uses this literal,
not an exact pi squared). -/
noncomputable def PI_SQUARED : ℝ := 9.86960440108935861883

namespace Glicko2_impl

/-- Glicko2_impl::dvolatility, the system constant tau (0.3). -/
noncomputable def dvolatility : ℝ := 0.3

/-- Glicko2_impl::g from glicko2.cpp. -/
noncomputable def g (deviation : ℝ) : ℝ :=
  1 / Real.sqrt (1 + 3 * deviation * deviation / PI_SQUARED)

/-- Glicko2_impl::E from glicko2.cpp. -/
noncomputable def E (rating rating_opponent deviation_opponent : ℝ) : ℝ :=
  1 / (1 + Real.exp (-(g deviation_opponent) * (rating - rating_opponent)))

end Glicko2_impl

/-- The state of a `Glicko2` object: the fields of `Glicko2_impl`.
`AddResult` stores a full copy of the opponent object (C++ value
semantics of `std::vector<Glicko2>` plus the deep-copying copy
constructor), hence the nested recursion through `List`. -/
inductive Glicko2 : Type where
  | mk (rating deviation volatility : ℝ)
      (opponents : List Glicko2) (results : List ℝ) : Glicko2

namespace Glicko2

/-- Field accessor for `rating`. -/
noncomputable def rating : Glicko2 → ℝ
  | .mk r _ _ _ _ => r

/-- Field accessor for `deviation`. -/
noncomputable def deviation : Glicko2 → ℝ
  | .mk _ d _ _ _ => d

/-- Field accessor for `volatility`. -/
noncomputable def volatility : Glicko2 → ℝ
  | .mk _ _ v _ _ => v

/-- Field accessor for `opponents`. -/
def opponents : Glicko2 → List Glicko2
  | .mk _ _ _ o _ => o

/-- Field accessor for `results`. -/
def results : Glicko2 → List ℝ
  | .mk _ _ _ _ s => s

@[simp] lemma rating_mk (r d v : ℝ) (o : List Glicko2) (s : List ℝ) :
    (Glicko2.mk r d v o s).rating = r := rfl

@[simp] lemma deviation_mk (r d v : ℝ) (o : List Glicko2) (s : List ℝ) :
    (Glicko2.mk r d v o s).deviation = d := rfl

@[simp] lemma volatility_mk (r d v : ℝ) (o : List Glicko2) (s : List ℝ) :
    (Glicko2.mk r d v o s).volatility = v := rfl

@[simp] lemma opponents_mk (r d v : ℝ) (o : List Glicko2) (s : List ℝ) :
    (Glicko2.mk r d v o s).opponents = o := rfl

@[simp] lemma results_mk (r d v : ℝ) (o : List Glicko2) (s : List ℝ) :
    (Glicko2.mk r d v o s).results = s := rfl

/-- Glicko2::RESULT enumeration. -/
inductive RESULT : Type where
  | WIN : RESULT
  | LOSS : RESULT
  | DRAW : RESULT

/-- Glicko2::SetRating: public-scale rating converted to internal scale. -/
noncomputable def SetRating (e : Glicko2) (rating : ℝ) : Glicko2 :=
  match e with
  | .mk _ d v o s => .mk ((rating - 1500) / 173.7178) d v o s

/-- Glicko2::SetDeviation: public-scale deviation converted to internal
scale. -/
noncomputable def SetDeviation (e : Glicko2) (deviation : ℝ) : Glicko2 :=
  match e with
  | .mk r _ v o s => .mk r (deviation / 173.7178) v o s

/-- Glicko2::SetVolatility: stored unchanged. -/
noncomputable def SetVolatility (e : Glicko2) (volatility : ℝ) : Glicko2 :=
  match e with
  | .mk r d _ o s => .mk r d volatility o s

/-- Glicko2::GetRating: internal rating converted to public scale. -/
noncomputable def GetRating (e : Glicko2) : ℝ :=
  e.rating * 173.7178 + 1500

/-- Glicko2::GetDeviation: internal deviation converted to public scale. -/
noncomputable def GetDeviation (e : Glicko2) : ℝ :=
  e.deviation * 173.7178

/-- Glicko2::GetVolatility. -/
noncomputable def GetVolatility (e : Glicko2) : ℝ :=
  e.volatility

/-- Glicko2 default constructor: impl fields start at 0/empty, then the
three setters run with 1500, 350, 0.06. -/
noncomputable def new : Glicko2 :=
  (((Glicko2.mk 0 0 0 [] []).SetRating 1500).SetDeviation 350).SetVolatility 0.06

/-- Glicko2 value constructor `Glicko2(rating, deviation, volatility)`:
impl fields start at 0/empty, then the three setters run. -/
noncomputable def ofPublic (rating deviation volatility : ℝ) : Glicko2 :=
  (((Glicko2.mk 0 0 0 [] []).SetRating rating).SetDeviation deviation).SetVolatility volatility

/-- Glicko2::ClearResults: empties both result vectors. -/
def ClearResults (e : Glicko2) : Glicko2 :=
  match e with
  | .mk r d v _ _ => .mk r d v [] []

/-- Glicko2::AddResult: pushes a copy of the opponent and the numeric
score (WIN 1, LOSS 0, DRAW 0.5). -/
noncomputable def AddResult (e opponent : Glicko2) (result : RESULT) : Glicko2 :=
  match e with
  | .mk r d v o s =>
      .mk r d v (o ++ [opponent])
        (s ++ [match result with
               | .WIN => 1
               | .LOSS => 0
               | .DRAW => 0.5])

/-- Glicko2::AddWin. -/
noncomputable def AddWin (e opponent : Glicko2) : Glicko2 :=
  e.AddResult opponent .WIN

/-- Glicko2::AddLoss. -/
noncomputable def AddLoss (e opponent : Glicko2) : Glicko2 :=
  e.AddResult opponent .LOSS

/-- Glicko2::AddDraw. -/
noncomputable def AddDraw (e opponent : Glicko2) : Glicko2 :=
  e.AddResult opponent .DRAW

end Glicko2

open Glicko2_impl

/-- The variance accumulation loop of Glicko2::Update: the sum of
`g_i * g_i * E_i * (1 - E_i)` over the recorded opponents. -/
noncomputable def varianceSum (mu : ℝ) (ops : List Glicko2) : ℝ :=
  (ops.map fun o =>
    g o.deviation * g o.deviation *
      E mu o.rating o.deviation * (1 - E mu o.rating o.deviation)).sum

/-- The delta/rating accumulation loop of Glicko2::Update: the sum of
`g_i * (results[i] - E_i)` over matching (opponent, score) pairs. -/
noncomputable def deltaSum (mu : ℝ) (ops : List Glicko2) (res : List ℝ) : ℝ :=
  ((ops.zip res).map fun p =>
    g p.1.deviation * (p.2 - E mu p.1.rating p.1.deviation)).sum

/-- One body of the volatility `while` loop of Glicko2::Update: given
the current iterate `x` it returns `x - h1/h2`. -/
noncomputable def newtonStep (phi variance delta a x : ℝ) : ℝ :=
  let d := phi * phi + variance + Real.exp x
  let h1 := -(x - a) / (dvolatility * dvolatility) - 0.5 * Real.exp x / d
    + 0.5 * Real.exp x * (delta / d) * (delta / d)
  let h2 := -1 / (dvolatility * dvolatility)
    - 0.5 * Real.exp x * (phi * phi + variance) / (d * d)
    + 0.5 * (delta * delta) * Real.exp x * ((phi * phi) + variance - Real.exp x) / (d * d * d)
  x - h1 / h2

/-- The volatility `while` loop of Glicko2::Update, fuel-indexed.  The
source initializes `x = 0`, `x_new = a` and loops while
`abs(x - x_new) > 0.0000001`, each iteration shifting `x := x_new` and
recomputing `x_new := x - h1/h2`.  `none` records that the loop has not
stopped within `fuel` iterations (the source has no iteration bound). -/
noncomputable def solverLoop (phi variance delta a : ℝ) : ℕ → ℝ → ℝ → Option ℝ
  | 0, x, x_new =>
      if |x - x_new| ≤ 0.0000001 then some x_new else none
  | fuel + 1, x, x_new =>
      if |x - x_new| ≤ 0.0000001 then some x_new
      else solverLoop phi variance delta a fuel x_new (newtonStep phi variance delta a x_new)

/-- The commit phase of Glicko2::Update: given the solver output
`x_new`, the new volatility is `exp(x_new/2)`, the deviation is
inflated to `pre_deviation`, the new deviation and rating follow, and
ClearResults empties both lists. -/
noncomputable def commitFrom (e : Glicko2) (x_new : ℝ) : Glicko2 :=
  let variance := 1 / varianceSum e.rating e.opponents
  let new_volatility := Real.exp (x_new / 2)
  let pre_deviation := Real.sqrt (e.deviation * e.deviation + new_volatility * new_volatility)
  let new_deviation := 1 / Real.sqrt (1 / (pre_deviation * pre_deviation) + 1 / variance)
  let new_rating := deltaSum e.rating e.opponents e.results * new_deviation * new_deviation
    + e.rating
  Glicko2.mk new_rating new_deviation new_volatility [] []

/-- Glicko2::Update.  Bails out (state unchanged) when no opponents are
recorded; otherwise computes variance, delta, runs the volatility
solver, and commits the new rating, deviation and volatility, clearing
the result lists. -/
noncomputable def Glicko2.Update (fuel : ℕ) (e : Glicko2) : Option Glicko2 :=
  if e.opponents.length = 0 then some e
  else
    let variance := 1 / varianceSum e.rating e.opponents
    let delta := deltaSum e.rating e.opponents e.results * variance
    let a := Real.log (e.volatility * e.volatility)
    (solverLoop e.deviation variance delta a fuel 0 a).map (commitFrom e)

/-!
Spec-side definitions.  These follow the wording of the specification
(sections 4.4 and 4.5) rather than the source; the refinement claims C1
and C2 compare them with the embedding above.
-/

/-- Spec 4.5 step 2: `v = ( Σ_j g_j^2 * E_j * (1-E_j) )^-1`, the sum
running over the recorded (opponent snapshot, score) pairs. -/
noncomputable def specV (mu : ℝ) (log : List (Glicko2 × ℝ)) : ℝ :=
  ((log.map fun j =>
    (g j.1.deviation) ^ 2 * E mu j.1.rating j.1.deviation *
      (1 - E mu j.1.rating j.1.deviation)).sum)⁻¹

/-- Spec 4.5 step 3: `Δ = v * Σ_j g_j * (score_j - E_j)`. -/
noncomputable def specDelta (mu : ℝ) (log : List (Glicko2 × ℝ)) : ℝ :=
  specV mu log *
    (log.map fun j => g j.1.deviation * (j.2 - E mu j.1.rating j.1.deviation)).sum

/-- Spec 4.5 step 5: `phi_star = sqrt(deviation^2 + sigma'^2)`. -/
noncomputable def specPhiStar (phi sigmaNew : ℝ) : ℝ :=
  Real.sqrt (phi ^ 2 + sigmaNew ^ 2)

/-- Spec 4.5 step 6: `phi' = 1 / sqrt(1/phi_star^2 + 1/v)`. -/
noncomputable def specPhiNew (phiStar v : ℝ) : ℝ :=
  1 / Real.sqrt (1 / phiStar ^ 2 + 1 / v)

/-- Spec 4.5 step 7: `mu' = rating + phi'^2 * Σ_j g_j * (score_j - E_j)`. -/
noncomputable def specMuNew (mu phiNew : ℝ) (log : List (Glicko2 × ℝ)) : ℝ :=
  mu + phiNew ^ 2 *
    (log.map fun j => g j.1.deviation * (j.2 - E mu j.1.rating j.1.deviation)).sum

/-- Spec 4.4 volatility algorithm, as worded in claim C2: initialize
`x = a`, repeatedly compute `x_next = x - h1/h2`, and stop exactly when
`|x_next - x| ≤ 1e-7` (so at least one Newton step is computed). -/
noncomputable def solverSpecLoop (phi variance delta a : ℝ) : ℕ → ℝ → Option ℝ
  | 0, x =>
      if |newtonStep phi variance delta a x - x| ≤ 0.0000001
      then some (newtonStep phi variance delta a x) else none
  | fuel + 1, x =>
      if |newtonStep phi variance delta a x - x| ≤ 0.0000001
      then some (newtonStep phi variance delta a x)
      else solverSpecLoop phi variance delta a fuel (newtonStep phi variance delta a x)

/-- Spec 4.4 step 4: the solver of claim C2 returns
`sigma' = exp(x_next / 2)` for the `x_next` at which it stopped,
starting from `x = a`. -/
noncomputable def specSolver (phi variance delta a : ℝ) (fuel : ℕ) : Option ℝ :=
  (solverSpecLoop phi variance delta a fuel a).map fun x => Real.exp (x / 2)

/-!
Basic facts about the pairwise functions.
-/

lemma PI_SQUARED_pos : (0:ℝ) < PI_SQUARED := by
  unfold PI_SQUARED; norm_num

lemma g_sqrt_arg_pos (deviation : ℝ) :
    (0:ℝ) < 1 + 3 * deviation * deviation / PI_SQUARED := by
  have h1 : (0:ℝ) ≤ 3 * deviation * deviation / PI_SQUARED := by
    apply div_nonneg _ PI_SQUARED_pos.le
    have := mul_self_nonneg deviation
    nlinarith
  linarith

lemma g_pos (deviation : ℝ) : 0 < g deviation := by
  unfold g
  have h := Real.sqrt_pos.mpr (g_sqrt_arg_pos deviation)
  positivity

lemma g_zero : g 0 = 1 := by
  unfold g
  norm_num

lemma E_pos (mu muJ phiJ : ℝ) : 0 < E mu muJ phiJ := by
  unfold E
  have h := Real.exp_pos (-(g phiJ) * (mu - muJ))
  positivity

lemma E_lt_one (mu muJ phiJ : ℝ) : E mu muJ phiJ < 1 := by
  unfold E
  have h := Real.exp_pos (-(g phiJ) * (mu - muJ))
  rw [div_lt_one (by linarith)]
  linarith

lemma E_same (mu phiJ : ℝ) : E mu mu phiJ = 1 / 2 := by
  unfold E
  rw [sub_self, mul_zero, Real.exp_zero]
  norm_num

/-!
Helper lemmas about `Update`.
-/

lemma solverLoop_stop {phi variance delta a x x_new : ℝ} (fuel : ℕ)
    (h : |x - x_new| ≤ 0.0000001) :
    solverLoop phi variance delta a fuel x x_new = some x_new := by
  cases fuel <;> simp [solverLoop, h]

/-- Unfolding a successful, non-bailing `Update`: the solver ran on the
code's variance and delta, and the result is the commit of its output. -/
lemma update_some {fuel : ℕ} {e eN : Glicko2} (hne : e.opponents ≠ [])
    (hup : e.Update fuel = some eN) :
    ∃ x, solverLoop e.deviation (1 / varianceSum e.rating e.opponents)
        (deltaSum e.rating e.opponents e.results * (1 / varianceSum e.rating e.opponents))
        (Real.log (e.volatility * e.volatility)) fuel 0
        (Real.log (e.volatility * e.volatility)) = some x ∧ eN = commitFrom e x := by
  unfold Glicko2.Update at hup
  rw [if_neg (by simpa [List.length_eq_zero] using hne)] at hup
  simp only [Option.map_eq_some'] at hup
  obtain ⟨x, hx, hcommit⟩ := hup
  exact ⟨x, hx, hcommit.symm⟩

/-- The new deviation committed after position `x_new` of the solver. -/
noncomputable def ndv (phi : ℝ) : ℝ :=
  1 / Real.sqrt (1 / (phi * phi + 1) + 1 / 4)

/-- A family of concretely evaluable updates: subject at internal rating
0, deviation `phi`, volatility 1 (so `a = ln 1 = 0` and the loop stops
at its entry check), one opponent at rating 0, deviation 0, score `s`. -/
lemma update_basic (fuel : ℕ) (phi s : ℝ) :
    Glicko2.Update fuel (Glicko2.mk 0 phi 1 [Glicko2.mk 0 0 0 [] []] [s])
      = some (Glicko2.mk ((s - 1 / 2) * ndv phi * ndv phi) (ndv phi) 1 [] []) := by
  have hvs : varianceSum 0 [Glicko2.mk 0 0 0 [] []] = 1 / 4 := by
    simp [varianceSum, Glicko2.deviation, Glicko2.rating, g_zero, E_same]
    norm_num
  have hds : deltaSum 0 [Glicko2.mk 0 0 0 [] []] [s] = s - 1 / 2 := by
    simp [deltaSum, Glicko2.deviation, Glicko2.rating, g_zero, E_same]
  have hpre : Real.sqrt (phi * phi + 1 * 1) * Real.sqrt (phi * phi + 1 * 1)
      = phi * phi + 1 := by
    rw [Real.mul_self_sqrt (by nlinarith [mul_self_nonneg phi])]; ring
  unfold Glicko2.Update
  rw [if_neg (by simp [Glicko2.opponents])]
  simp only [Glicko2.rating, Glicko2.deviation, Glicko2.volatility, Glicko2.opponents,
    Glicko2.results, hvs, hds, one_mul, Real.log_one]
  rw [solverLoop_stop fuel (by norm_num)]
  unfold commitFrom
  simp only [Option.map_some', Glicko2.rating, Glicko2.deviation, Glicko2.volatility,
    Glicko2.opponents, Glicko2.results, hvs, hds]
  have h2 : (0:ℝ) / 2 = 0 := by norm_num
  rw [h2, Real.exp_zero, hpre]
  unfold ndv
  norm_num

/-!
Claim C3: empty-log no-op.
-/

/-- C3: for every entity whose pending result log is empty, `Update` is
a no-op: it returns the state itself, so rating, deviation and
volatility are unchanged and the log stays empty. -/
theorem C3_empty_log_noop (fuel : ℕ) (e : Glicko2)
    (hop : e.opponents = []) (hres : e.results = []) :
    e.Update fuel = some e ∧
      (e.Update fuel).map Glicko2.rating = some e.rating ∧
      (e.Update fuel).map Glicko2.deviation = some e.deviation ∧
      (e.Update fuel).map Glicko2.volatility = some e.volatility ∧
      (e.Update fuel).map Glicko2.results = some [] := by
  have h : e.Update fuel = some e := by
    unfold Glicko2.Update
    rw [if_pos (by simp [hop])]
  refine ⟨h, ?_, ?_, ?_, ?_⟩ <;> rw [h] <;> simp [hres]

/-- C3 witness: the default-constructed entity has an empty log and its
update is a no-op. -/
theorem C3_empty_log_noop_witness :
    Glicko2.new.opponents = [] ∧ Glicko2.new.results = [] ∧
      (Glicko2.new.Update 3 = some Glicko2.new ∧
        (Glicko2.new.Update 3).map Glicko2.rating = some Glicko2.new.rating ∧
        (Glicko2.new.Update 3).map Glicko2.deviation = some Glicko2.new.deviation ∧
        (Glicko2.new.Update 3).map Glicko2.volatility = some Glicko2.new.volatility ∧
        (Glicko2.new.Update 3).map Glicko2.results = some []) := by
  have hop : Glicko2.new.opponents = [] := by
    simp [Glicko2.new, Glicko2.SetRating, Glicko2.SetDeviation, Glicko2.SetVolatility,
      Glicko2.opponents]
  have hres : Glicko2.new.results = [] := by
    simp [Glicko2.new, Glicko2.SetRating, Glicko2.SetDeviation, Glicko2.SetVolatility,
      Glicko2.results]
  exact ⟨hop, hres, C3_empty_log_noop 3 Glicko2.new hop hres⟩

/-!
Claim C4: snapshot isolation.  The two-entity world (subject, opponent)
with its operations: recording a result reads the opponent from the
world at record time (and `AddResult` stores that value — the C++ deep
copy), while a mutation of the opponent replaces the opponent component
only.
-/

/-- Record a result for the subject against the current opponent. -/
noncomputable def addResultW (result : Glicko2.RESULT) (w : Glicko2 × Glicko2) :
    Glicko2 × Glicko2 :=
  (w.1.AddResult w.2 result, w.2)

/-- Mutate the opponent by an arbitrary state transformation (covers its
setters and its own updates). -/
noncomputable def mutateO (f : Glicko2 → Glicko2) (w : Glicko2 × Glicko2) :
    Glicko2 × Glicko2 :=
  (w.1, f w.2)

/-- Run `Update` on the subject. -/
noncomputable def updateS (fuel : ℕ) (w : Glicko2 × Glicko2) :
    Option (Glicko2 × Glicko2) :=
  (w.1.Update fuel).map fun s => (s, w.2)

/-- C4: snapshot isolation.  Recording a result, then mutating the
opponent in any way whatsoever (setters, its own update, anything), then
updating the subject, leaves the subject exactly as if the opponent had
never been mutated: the recorded snapshot is a copy, not a live
reference. -/
theorem C4_snapshot_isolation (s o : Glicko2) (result : Glicko2.RESULT)
    (f : Glicko2 → Glicko2) (fuel : ℕ) :
    (updateS fuel (mutateO f (addResultW result (s, o)))).map Prod.fst
      = (updateS fuel (addResultW result (s, o))).map Prod.fst := by
  cases h : (s.AddResult o result).Update fuel <;>
    simp [updateS, mutateO, addResultW, h]

/-!
Claim C8: scale round-trip.
-/

/-- C8: setting the public rating to `r` and reading it back returns
`r` exactly (the embedding is exact real arithmetic, so "within floating
tolerance" holds with zero error); likewise for the deviation. -/
theorem C8_scale_roundtrip (e : Glicko2) (r rd : ℝ) :
    (e.SetRating r).GetRating = r ∧ (e.SetDeviation rd).GetDeviation = rd := by
  cases e
  constructor <;>
    simp [Glicko2.SetRating, Glicko2.SetDeviation, Glicko2.GetRating,
      Glicko2.GetDeviation, Glicko2.rating, Glicko2.deviation] <;>
    field_simp

/-!
Claim C9: range of the expected-score function.
-/

/-- C9: `E` is strictly between 0 and 1 (for all real inputs, in
particular those with nonnegative opponent deviation), and
`E(mu, mu, 0) = 0.5` for every `mu`. -/
theorem C9_E_range (mu muJ phiJ : ℝ) (h : 0 ≤ phiJ) :
    (0 < E mu muJ phiJ ∧ E mu muJ phiJ < 1) ∧ E mu mu 0 = 1 / 2 :=
  ⟨⟨E_pos mu muJ phiJ, E_lt_one mu muJ phiJ⟩, E_same mu 0⟩

/-- C9 witness at `mu = 0`, `mu_j = 1`, `phi_j = 0`. -/
theorem C9_E_range_witness :
    (0:ℝ) ≤ 0 ∧ ((0 < E 0 1 0 ∧ E 0 1 0 < 1) ∧ E 0 0 0 = 1 / 2) :=
  ⟨le_refl 0, C9_E_range 0 1 0 (le_refl 0)⟩

/-!
Claim C10: the opponent list and the score list stay the same length
under every public operation sequence.
-/

/-- The public mutating operations of the `Glicko2` interface. -/
inductive Op : Type where
  | setRating (r : ℝ) : Op
  | setDeviation (d : ℝ) : Op
  | setVolatility (v : ℝ) : Op
  | addResult (opponent : Glicko2) (result : Glicko2.RESULT) : Op
  | addWin (opponent : Glicko2) : Op
  | addLoss (opponent : Glicko2) : Op
  | addDraw (opponent : Glicko2) : Op
  | clearResults : Op
  | update (fuel : ℕ) : Op

/-- Apply one public operation.  For `update`, a `none` outcome means
the source's unbounded loop has not stopped within `fuel` iterations,
in which case the program reaches no next state; keeping the state
unchanged makes every state the program can reach also reachable in
the model. -/
noncomputable def applyOp (e : Glicko2) : Op → Glicko2
  | .setRating r => e.SetRating r
  | .setDeviation d => e.SetDeviation d
  | .setVolatility v => e.SetVolatility v
  | .addResult opponent result => e.AddResult opponent result
  | .addWin opponent => e.AddWin opponent
  | .addLoss opponent => e.AddLoss opponent
  | .addDraw opponent => e.AddDraw opponent
  | .clearResults => e.ClearResults
  | .update fuel => (e.Update fuel).getD e

/-- Apply a sequence of public operations. -/
noncomputable def runOps (e : Glicko2) : List Op → Glicko2
  | [] => e
  | op :: ops => runOps (applyOp e op) ops

/-- The paired-log invariant: as many opponent snapshots as scores. -/
def pairedLog (e : Glicko2) : Prop :=
  e.opponents.length = e.results.length

lemma pairedLog_update {fuel : ℕ} {e x : Glicko2} (he : pairedLog e)
    (h : e.Update fuel = some x) : pairedLog x := by
  unfold Glicko2.Update at h
  by_cases hc : e.opponents.length = 0
  · rw [if_pos hc] at h
    obtain rfl : e = x := by simpa using h
    exact he
  · rw [if_neg hc] at h
    simp only [Option.map_eq_some'] at h
    obtain ⟨y, _, hy⟩ := h
    subst hy
    simp [commitFrom, pairedLog, Glicko2.opponents, Glicko2.results]

lemma pairedLog_applyOp (e : Glicko2) (op : Op) (he : pairedLog e) :
    pairedLog (applyOp e op) := by
  cases op with
  | update fuel =>
      cases h : e.Update fuel with
      | none => simpa [applyOp, h] using he
      | some x => simpa [applyOp, h] using pairedLog_update he h
  | addResult opponent result =>
      cases e
      simp only [pairedLog, applyOp, Glicko2.AddResult, Glicko2.opponents,
        Glicko2.results, List.length_append, List.length_cons, List.length_nil] at he ⊢
      omega
  | addWin opponent =>
      cases e
      simp only [pairedLog, applyOp, Glicko2.AddWin, Glicko2.AddResult, Glicko2.opponents,
        Glicko2.results, List.length_append, List.length_cons, List.length_nil] at he ⊢
      omega
  | addLoss opponent =>
      cases e
      simp only [pairedLog, applyOp, Glicko2.AddLoss, Glicko2.AddResult, Glicko2.opponents,
        Glicko2.results, List.length_append, List.length_cons, List.length_nil] at he ⊢
      omega
  | addDraw opponent =>
      cases e
      simp only [pairedLog, applyOp, Glicko2.AddDraw, Glicko2.AddResult, Glicko2.opponents,
        Glicko2.results, List.length_append, List.length_cons, List.length_nil] at he ⊢
      omega
  | clearResults =>
      cases e
      simp [pairedLog, applyOp, Glicko2.ClearResults, Glicko2.opponents, Glicko2.results]
  | setRating r =>
      cases e
      simpa [pairedLog, applyOp, Glicko2.SetRating, Glicko2.opponents, Glicko2.results]
        using he
  | setDeviation d =>
      cases e
      simpa [pairedLog, applyOp, Glicko2.SetDeviation, Glicko2.opponents, Glicko2.results]
        using he
  | setVolatility v =>
      cases e
      simpa [pairedLog, applyOp, Glicko2.SetVolatility, Glicko2.opponents, Glicko2.results]
        using he

lemma pairedLog_runOps (ops : List Op) : ∀ e : Glicko2, pairedLog e →
    pairedLog (runOps e ops) := by
  induction ops with
  | nil => intro e he; exact he
  | cons op ops ih =>
      intro e he
      exact ih (applyOp e op) (pairedLog_applyOp e op he)

/-- C10: after any sequence of public operations starting from either
constructor, the opponent-snapshot list and the score list have equal
length, so the indexed reads of `Update` always have a matching score
for each opponent. -/
theorem C10_paired_log :
    (∀ ops : List Op, pairedLog (runOps Glicko2.new ops)) ∧
      ∀ r d v : ℝ, ∀ ops : List Op, pairedLog (runOps (Glicko2.ofPublic r d v) ops) := by
  constructor
  · intro ops
    apply pairedLog_runOps
    simp [pairedLog, Glicko2.new, Glicko2.SetRating, Glicko2.SetDeviation,
      Glicko2.SetVolatility, Glicko2.opponents, Glicko2.results]
  · intro r d v ops
    apply pairedLog_runOps
    simp [pairedLog, Glicko2.ofPublic, Glicko2.SetRating, Glicko2.SetDeviation,
      Glicko2.SetVolatility, Glicko2.opponents, Glicko2.results]

/-!
Claim C1: the committed values of `Update` are exactly the spec's
aggregate formulas.
-/

lemma zipMapFst {α β γ : Type _} (f : α → γ) (l₁ : List α) (l₂ : List β)
    (h : l₁.length ≤ l₂.length) :
    (l₁.zip l₂).map (fun p => f p.1) = l₁.map f := by
  rw [show (fun p : α × β => f p.1) = f ∘ Prod.fst from rfl, ← List.map_map,
    List.map_fst_zip _ _ h]

/-- The spec's `v` over the zipped log equals the code's inverted
variance accumulation, whenever each opponent has a score. -/
lemma specV_eq (mu : ℝ) (ops : List Glicko2) (res : List ℝ)
    (h : ops.length ≤ res.length) :
    specV mu (ops.zip res) = 1 / varianceSum mu ops := by
  unfold specV varianceSum
  rw [one_div]
  rw [zipMapFst (fun o : Glicko2 => (g o.deviation) ^ 2 * E mu o.rating o.deviation *
    (1 - E mu o.rating o.deviation)) ops res h]
  simp only [pow_two]

/-- The spec's `Δ` over the zipped log equals the code's delta. -/
lemma specDelta_eq (mu : ℝ) (ops : List Glicko2) (res : List ℝ)
    (h : ops.length ≤ res.length) :
    specDelta mu (ops.zip res) = deltaSum mu ops res * (1 / varianceSum mu ops) := by
  unfold specDelta deltaSum
  rw [specV_eq mu ops res h, mul_comm]

/-- C1: a successful `Update` on a non-empty, well-formed log runs the
solver on exactly the spec's `v` and `Δ`, and commits volatility
`exp(x/2)`, deviation `phi_star`/`phi'` per spec steps 5 and 6, and
rating `mu'` per spec step 7. -/
theorem C1_update_formulas (fuel : ℕ) (e eN : Glicko2) (hne : e.opponents ≠ [])
    (hlen : e.opponents.length = e.results.length) (hup : e.Update fuel = some eN) :
    ∃ x, solverLoop e.deviation (specV e.rating (e.opponents.zip e.results))
        (specDelta e.rating (e.opponents.zip e.results))
        (Real.log (e.volatility * e.volatility)) fuel 0
        (Real.log (e.volatility * e.volatility)) = some x ∧
      eN.volatility = Real.exp (x / 2) ∧
      eN.deviation = specPhiNew (specPhiStar e.deviation eN.volatility)
        (specV e.rating (e.opponents.zip e.results)) ∧
      eN.rating = specMuNew e.rating eN.deviation (e.opponents.zip e.results) := by
  obtain ⟨x, hx, hcommit⟩ := update_some hne hup
  refine ⟨x, ?_, ?_, ?_, ?_⟩
  · rw [specV_eq _ _ _ hlen.le, specDelta_eq _ _ _ hlen.le]
    exact hx
  · rw [hcommit]
    unfold commitFrom
    simp only [Glicko2.volatility_mk]
  · rw [hcommit]
    have hnv : (commitFrom e x).volatility = Real.exp (x / 2) := by
      unfold commitFrom
      simp only [Glicko2.volatility_mk]
    rw [hnv]
    unfold commitFrom
    simp only [Glicko2.deviation_mk]
    rw [specV_eq _ _ _ hlen.le]
    unfold specPhiNew specPhiStar
    have harg : (0:ℝ) ≤ e.deviation * e.deviation
        + Real.exp (x / 2) * Real.exp (x / 2) := by
      nlinarith [mul_self_nonneg e.deviation, Real.exp_pos (x / 2),
        mul_pos (Real.exp_pos (x / 2)) (Real.exp_pos (x / 2))]
    have harg2 : (0:ℝ) ≤ e.deviation ^ 2 + Real.exp (x / 2) ^ 2 := by positivity
    rw [Real.mul_self_sqrt harg, Real.sq_sqrt harg2]
    simp only [pow_two]
  · rw [hcommit]
    unfold commitFrom
    simp only [Glicko2.rating_mk, Glicko2.deviation_mk]
    unfold specMuNew deltaSum
    ring

/-- Entity for the C1 witness: internal rating 0, deviation 1,
volatility 1, one win against an opponent at rating 0, deviation 0. -/
noncomputable def w1E : Glicko2 :=
  Glicko2.mk 0 1 1 [Glicko2.mk 0 0 0 [] []] [1]

/-- The committed state of the C1 witness update. -/
noncomputable def w1N : Glicko2 :=
  Glicko2.mk ((1 - 1 / 2) * ndv 1 * ndv 1) (ndv 1) 1 [] []

/-- C1 witness: the hypotheses of `C1_update_formulas` hold of `w1E`
(computed by `update_basic`), and hence so does its conclusion. -/
theorem C1_update_formulas_witness :
    (w1E.opponents ≠ [] ∧ w1E.opponents.length = w1E.results.length ∧
      w1E.Update 1 = some w1N) ∧
    (∃ x, solverLoop w1E.deviation (specV w1E.rating (w1E.opponents.zip w1E.results))
        (specDelta w1E.rating (w1E.opponents.zip w1E.results))
        (Real.log (w1E.volatility * w1E.volatility)) 1 0
        (Real.log (w1E.volatility * w1E.volatility)) = some x ∧
      w1N.volatility = Real.exp (x / 2) ∧
      w1N.deviation = specPhiNew (specPhiStar w1E.deviation w1N.volatility)
        (specV w1E.rating (w1E.opponents.zip w1E.results)) ∧
      w1N.rating = specMuNew w1E.rating w1N.deviation
        (w1E.opponents.zip w1E.results)) := by
  have h1 : w1E.opponents ≠ [] := by simp [w1E, Glicko2.opponents]
  have h2 : w1E.opponents.length = w1E.results.length := by
    simp [w1E, Glicko2.opponents, Glicko2.results]
  have h3 : w1E.Update 1 = some w1N := update_basic 1 1 1
  exact ⟨⟨h1, h2, h3⟩, C1_update_formulas 1 w1E w1N h1 h2 h3⟩

/-!
Claim C7: positivity of the committed deviation, and safety of the
variance division.
-/

lemma varianceSum_pos (mu : ℝ) (ops : List Glicko2) (hne : ops ≠ []) :
    0 < varianceSum mu ops := by
  unfold varianceSum
  apply List.sum_pos
  · intro x hx
    simp only [List.mem_map] at hx
    obtain ⟨o, _, rfl⟩ := hx
    have h1 := g_pos o.deviation
    have h2 := E_pos mu o.rating o.deviation
    have h3 := E_lt_one mu o.rating o.deviation
    exact mul_pos (mul_pos (mul_pos h1 h1) h2) (by linarith)
  · simpa using hne

/-- C7: after a completed `Update` on a non-empty log (with positive
prior deviation, as the claim assumes), the committed deviation is
strictly positive, and the denominator of the variance step is strictly
positive (each term `E_j * (1 - E_j)` being strictly positive), so the
division is safe.  Finiteness is automatic in the real-number
embedding. -/
theorem C7_deviation_positive (fuel : ℕ) (e eN : Glicko2) (hne : e.opponents ≠ [])
    (hdev : 0 < e.deviation) (hup : e.Update fuel = some eN) :
    0 < eN.deviation ∧ 0 < varianceSum e.rating e.opponents := by
  obtain ⟨x, _, hcommit⟩ := update_some hne hup
  have hvspos : 0 < varianceSum e.rating e.opponents := varianceSum_pos _ _ hne
  refine ⟨?_, hvspos⟩
  rw [hcommit]
  unfold commitFrom
  simp only [Glicko2.deviation_mk]
  have hex : 0 < Real.exp (x / 2) := Real.exp_pos _
  have hprepos : 0 < e.deviation * e.deviation + Real.exp (x / 2) * Real.exp (x / 2) := by
    nlinarith [mul_self_nonneg e.deviation]
  rw [Real.mul_self_sqrt hprepos.le, one_div_one_div]
  have hinner : 0 < 1 / (e.deviation * e.deviation + Real.exp (x / 2) * Real.exp (x / 2))
      + varianceSum e.rating e.opponents :=
    add_pos (div_pos one_pos hprepos) hvspos
  exact div_pos one_pos (Real.sqrt_pos.mpr hinner)

/-- Entity for the C7 witness: deviation 2, volatility 1, one loss. -/
noncomputable def w7E : Glicko2 :=
  Glicko2.mk 0 2 1 [Glicko2.mk 0 0 0 [] []] [0]

/-- The committed state of the C7 witness update. -/
noncomputable def w7N : Glicko2 :=
  Glicko2.mk ((0 - 1 / 2) * ndv 2 * ndv 2) (ndv 2) 1 [] []

/-- C7 witness: the hypotheses hold of `w7E` and hence its committed
deviation is strictly positive. -/
theorem C7_deviation_positive_witness :
    (w7E.opponents ≠ [] ∧ 0 < w7E.deviation ∧ w7E.Update 2 = some w7N) ∧
      (0 < w7N.deviation ∧ 0 < varianceSum w7E.rating w7E.opponents) := by
  have h1 : w7E.opponents ≠ [] := by simp [w7E]
  have h2 : 0 < w7E.deviation := by simp [w7E]
  have h3 : w7E.Update 2 = some w7N := update_basic 2 2 0
  exact ⟨⟨h1, h2, h3⟩, C7_deviation_positive 2 w7E w7N h1 h2 h3⟩

/-!
Claim C6 concerns the error path of `Update`.  The source has none:
every completed update on a non-empty log unconditionally commits the
computed values and clears the log.  The following theorem exhibits that
structure (used as evidence for the C6 code-bug verdict).
-/

/-- C6 evidence: whenever `Update` completes on a non-empty log, it
commits `commitFrom` (whatever values the solver produced) and clears
both result lists; the code contains no failure outcome and no branch
that leaves the prior state untouched. -/
theorem C6_unconditional_commit (fuel : ℕ) (e eN : Glicko2) (hne : e.opponents ≠ [])
    (hup : e.Update fuel = some eN) :
    eN.opponents = [] ∧ eN.results = [] ∧
      ∃ x, eN = commitFrom e x ∧ eN.volatility = Real.exp (x / 2) := by
  obtain ⟨x, _, hcommit⟩ := update_some hne hup
  refine ⟨?_, ?_, x, hcommit, ?_⟩ <;> rw [hcommit] <;> unfold commitFrom <;> simp

/-- Entity for the C6 witness: deviation 3, volatility 1, one draw. -/
noncomputable def w6E : Glicko2 :=
  Glicko2.mk 0 3 1 [Glicko2.mk 0 0 0 [] []] [1 / 2]

/-- The committed state of the C6 witness update. -/
noncomputable def w6N : Glicko2 :=
  Glicko2.mk ((1 / 2 - 1 / 2) * ndv 3 * ndv 3) (ndv 3) 1 [] []

/-- C6 witness: a concrete completed update commits and clears. -/
theorem C6_unconditional_commit_witness :
    (w6E.opponents ≠ [] ∧ w6E.Update 1 = some w6N) ∧
      (w6N.opponents = [] ∧ w6N.results = [] ∧
        ∃ x, w6N = commitFrom w6E x ∧ w6N.volatility = Real.exp (x / 2)) := by
  have h1 : w6E.opponents ≠ [] := by simp [w6E]
  have h3 : w6E.Update 1 = some w6N := update_basic 1 3 (1 / 2)
  exact ⟨⟨h1, h3⟩, C6_unconditional_commit 1 w6E w6N h1 h3⟩

/-!
Claim C2: the volatility solver versus the spec's algorithm.  After the
loop has been entered once, the code iterates exactly as the spec says;
but the code's entry check compares the sentinel `x = 0` against
`x_new = a`, so when `|a| ≤ 1e-7` no Newton step runs at all.
-/

lemma solverLoop_eq_spec (phi variance delta a : ℝ) : ∀ (fuel : ℕ) (x : ℝ),
    solverLoop phi variance delta a fuel x (newtonStep phi variance delta a x)
      = solverSpecLoop phi variance delta a fuel x := by
  intro fuel
  induction fuel with
  | zero =>
      intro x
      unfold solverLoop solverSpecLoop
      rw [abs_sub_comm]
  | succ f ih =>
      intro x
      unfold solverLoop solverSpecLoop
      rw [abs_sub_comm, ih (newtonStep phi variance delta a x)]

/-- C2 as amended: whenever the entry check passes (`|a| > 1e-7`, i.e.
the volatility is not within about `5e-8` of 1), the code's loop run
with the sentinel initialization coincides with the spec's algorithm
started at `x = a`: it repeats `x_next = x - h1/h2` and stops exactly
when `|x_next - x| ≤ 1e-7`; the committed volatility is then
`exp(x_next/2)` of that common output (see `C1_update_formulas`). -/
theorem C2_amended_solver (phi variance delta a : ℝ) (fuel : ℕ)
    (h : ¬ |(0:ℝ) - a| ≤ 0.0000001) :
    solverLoop phi variance delta a (fuel + 1) 0 a
      = solverSpecLoop phi variance delta a fuel a := by
  unfold solverLoop
  rw [if_neg h]
  exact solverLoop_eq_spec phi variance delta a fuel a

/-- C2 amended-claim witness at `a = ln 2` (volatility `sqrt 2`),
`phi = 1`, `v = 1`, `Δ = 2`. -/
theorem C2_amended_solver_witness :
    ¬ |(0:ℝ) - Real.log 2| ≤ 0.0000001 ∧
      solverLoop 1 1 2 (Real.log 2) 1 0 (Real.log 2)
        = solverSpecLoop 1 1 2 (Real.log 2) 0 (Real.log 2) := by
  have hgt : (0.0000001:ℝ) < |(0:ℝ) - Real.log 2| := by
    rw [zero_sub, abs_neg, abs_of_pos (Real.log_pos one_lt_two)]
    have := Real.log_two_gt_d9
    linarith
  exact ⟨not_le.mpr hgt, C2_amended_solver 1 1 2 (Real.log 2) 0 (not_le.mpr hgt)⟩

/-- Entity refuting claim C2 as stated: volatility exactly 1 (so
`a = ln 1 = 0`), deviation `sqrt(0.25001)`, four pending results (three
wins and a draw against opponents at rating 0, deviation 0), chosen so
that the spec's first Newton step from `x = a` moves by a nonzero
amount below the 1e-7 threshold. -/
noncomputable def c2E : Glicko2 :=
  Glicko2.mk 0 (Real.sqrt (25001 / 100000)) 1
    [Glicko2.mk 0 0 0 [] [], Glicko2.mk 0 0 0 [] [],
      Glicko2.mk 0 0 0 [] [], Glicko2.mk 0 0 0 [] []]
    [1, 1, 1, 1 / 2]

/-- The exact value of the spec algorithm's first Newton step from
`x = 0` on the aggregates of `c2E`. -/
noncomputable def c2x1 : ℝ := -(1012504500 / 11492027438179501)

lemma c2E_phi_sq : c2E.deviation * c2E.deviation = 25001 / 100000 := by
  simp only [c2E, Glicko2.deviation_mk]
  exact Real.mul_self_sqrt (by norm_num)

lemma c2E_varianceSum : varianceSum c2E.rating c2E.opponents = 1 := by
  simp only [c2E, Glicko2.rating_mk, Glicko2.opponents_mk]
  simp [varianceSum, g_zero, E_same]
  norm_num

lemma c2E_deltaSum : deltaSum c2E.rating c2E.opponents c2E.results = 3 / 2 := by
  simp only [c2E, Glicko2.rating_mk, Glicko2.opponents_mk, Glicko2.results_mk]
  simp [deltaSum, g_zero, E_same]
  norm_num

lemma c2E_log : Real.log (c2E.volatility * c2E.volatility) = 0 := by
  simp only [c2E, Glicko2.volatility_mk, one_mul, Real.log_one]

/-- The code's update on `c2E` commits volatility `exp(0/2) = 1`: the
entry check `|0 - a| ≤ 1e-7` holds, so no Newton step runs. -/
lemma c2E_code_volatility : (c2E.Update 1).map Glicko2.volatility = some 1 := by
  have hne : ¬ c2E.opponents.length = 0 := by simp [c2E]
  have hs : ∀ p v d : ℝ, solverLoop p v d 0 1 0 0 = some 0 :=
    fun p v d => solverLoop_stop 1 (by norm_num)
  unfold Glicko2.Update
  rw [if_neg hne, c2E_log]
  simp only [hs]
  unfold commitFrom
  simp

/-- The spec algorithm's first step on the aggregates of `c2E`. -/
lemma c2E_newtonStep : newtonStep c2E.deviation 1 (3 / 2) 0 0 = c2x1 := by
  unfold newtonStep dvolatility c2x1
  rw [Real.exp_zero, c2E_phi_sq]
  norm_num

/-- C2 counterexample: on `c2E` the code commits volatility 1, while
the algorithm stated in the claim (initialize `x = a`, repeatedly step,
stop when `|x_next - x| ≤ 1e-7`, return `exp(x_next/2)`) run on the
very same `phi`, `v`, `Δ`, `a` produces a value different from 1 — it
performs one Newton step, which the code's entry check skips. -/
theorem C2_counterexample :
    (c2E.Update 1).map Glicko2.volatility = some 1 ∧
      specSolver c2E.deviation (specV c2E.rating (c2E.opponents.zip c2E.results))
        (specDelta c2E.rating (c2E.opponents.zip c2E.results))
        (Real.log (c2E.volatility * c2E.volatility)) 1 ≠ some 1 := by
  refine ⟨c2E_code_volatility, ?_⟩
  have hV : specV c2E.rating (c2E.opponents.zip c2E.results) = 1 := by
    rw [specV_eq _ _ _ (by simp [c2E]), c2E_varianceSum]
    norm_num
  have hD : specDelta c2E.rating (c2E.opponents.zip c2E.results) = 3 / 2 := by
    rw [specDelta_eq _ _ _ (by simp [c2E]), c2E_varianceSum, c2E_deltaSum]
    norm_num
  rw [hV, hD, c2E_log]
  unfold specSolver
  show (solverSpecLoop c2E.deviation 1 (3 / 2) 0 (0 + 1) 0).map
      (fun x => Real.exp (x / 2)) ≠ some 1
  unfold solverSpecLoop
  rw [c2E_newtonStep]
  rw [if_pos (by unfold c2x1; rw [sub_zero]; rw [abs_of_neg (by norm_num)]; norm_num)]
  simp only [Option.map_some', ne_eq, Option.some.injEq]
  rw [Real.exp_eq_one_iff]
  unfold c2x1
  norm_num

end Glicko
